import Mathlib

/-!
Verification development for the liveback discrete-event market simulator.

The Python source is embedded shallowly: floats become exact rationals (ℚ),
timestamps become natural numbers, Python dicts (which preserve insertion
order) become association lists, and fallible calls return Option/Except.
Each definition is translated from the corresponding function of the source
(src/portfolio.py, src/broker.py, src/risk_manager.py, src/event_bus.py,
src/execution/execution_client.py); doc comments name the origin.
-/

namespace Liveback

/-- Order side enumeration (src/types.py, class OrderSide). -/
inductive OrderSide where
  | BUY
  | SELL
deriving DecidableEq, Repr

/-- The string value of an OrderSide (Python Enum .value). -/
def OrderSide.value : OrderSide → String
  | OrderSide.BUY => "BUY"
  | OrderSide.SELL => "SELL"

/-- Order type enumeration (src/types.py, class OrderType). -/
inductive OrderType where
  | MARKET
  | LIMIT
  | STOP
deriving DecidableEq, Repr

/-- Order dataclass (src/types.py, class Order).  Quantity is stored exactly
as passed by the caller (the broker stores the signed quantity). -/
structure Order where
  symbol : String
  side : OrderSide
  quantity : ℚ
  order_type : OrderType := OrderType.MARKET
  limit_price : Option ℚ := none
  stop_price : Option ℚ := none
deriving DecidableEq, Repr

/-- Fill dataclass (src/types.py, class Fill).  The Python order_id string
"SIM_n" / "ORD_n" is modelled by a numeric id; the datetime timestamp by ℕ. -/
structure Fill where
  order_id : ℕ
  timestamp : ℕ
  symbol : String
  side : OrderSide
  quantity : ℚ
  price : ℚ
  slippage : ℚ := 0
  commission : ℚ := 0
deriving DecidableEq, Repr

/-- Trade dataclass (src/types.py, class Trade); side is a string, as in the
source (fill.side.value is stored). -/
structure Trade where
  timestamp : ℕ
  symbol : String
  side : String
  quantity : ℚ
  price : ℚ
  slippage : ℚ
  commission : ℚ
  pnl : ℚ
deriving DecidableEq, Repr

/-- Position dataclass (src/types.py, class Position). -/
structure Position where
  symbol : String
  quantity : ℚ := 0
  avg_price : ℚ := 0
  unrealized_pnl : ℚ := 0
deriving DecidableEq, Repr

/-- A fresh zero position, Python Position(symbol=symbol). -/
def Position.init (s : String) : Position := ⟨s, 0, 0, 0⟩

/-- First-match lookup in an insertion-ordered association list (models
Python dict access self.positions[symbol]). -/
def lookupPos : List (String × Position) → String → Option Position
  | [], _ => none
  | (s, p) :: rest, sym => if s = sym then some p else lookupPos rest sym

/-- Overwrite the entry for a key, appending a new entry at the end when the
key is absent (models Python dict item assignment, which preserves insertion
order and appends new keys at the end). -/
def setPos : List (String × Position) → String → Position → List (String × Position)
  | [], sym, p => [(sym, p)]
  | (s, q) :: rest, sym, p =>
      if s = sym then (s, p) :: rest else (s, q) :: setPos rest sym p

/-- Portfolio state (src/portfolio.py, class Portfolio.__init__).  The
private event bus held by the portfolio has no subscribers and is omitted:
publishing on it has no observable effect on portfolio state. -/
structure Portfolio where
  initial_cash : ℚ
  cash : ℚ
  positions : List (String × Position)
  equity_curve : List (ℕ × ℚ)
  trades : List Trade
deriving DecidableEq, Repr

/-- Portfolio.__init__(initial_cash). -/
def Portfolio.init (c : ℚ) : Portfolio := ⟨c, c, [], [], []⟩

/-- The per-position body of Portfolio.apply_fill (src/portfolio.py lines
76-160): given the current position for the fill's symbol, returns the
updated position, the change to cash, and the appended trade (if any).
Branches mirror the source: BUY covering a short / adding to a long,
SELL closing a long / adding to a short, each with a remainder sub-branch. -/
def applyFillPos (pos : Position) (f : Fill) : Position × ℚ × Option Trade :=
  let cost := f.quantity * f.price + f.commission
  match f.side with
  | OrderSide.BUY =>
    if pos.quantity < 0 then
      let close := min |pos.quantity| f.quantity
      let pnl := (pos.avg_price - f.price) * close - f.commission
      let tr : Trade :=
        ⟨f.timestamp, f.symbol, OrderSide.BUY.value, close, f.price,
         f.slippage, f.commission, pnl⟩
      if close < f.quantity then
        ({ pos with avg_price := f.price, quantity := f.quantity - close },
         (f.quantity * f.price - cost) - (f.quantity - close) * f.price,
         some tr)
      else
        ({ pos with quantity := pos.quantity + close },
         f.quantity * f.price - cost,
         some tr)
    else
      let total_cost := pos.avg_price * pos.quantity + cost
      let newq := pos.quantity + f.quantity
      ({ pos with quantity := newq,
                  avg_price := if 0 < newq then total_cost / newq else 0 },
       -cost, none)
  | OrderSide.SELL =>
    if 0 < pos.quantity then
      let close := min pos.quantity f.quantity
      let pnl := (f.price - pos.avg_price) * close - f.commission
      let tr : Trade :=
        ⟨f.timestamp, f.symbol, OrderSide.SELL.value, close, f.price,
         f.slippage, f.commission, pnl⟩
      if close < f.quantity then
        ({ pos with avg_price := f.price, quantity := -(f.quantity - close) },
         (close * f.price - f.commission)
           + ((f.quantity - close) * f.price - f.commission),
         some tr)
      else
        ({ pos with quantity := pos.quantity - close },
         close * f.price - f.commission,
         some tr)
    else
      let total_proceeds := |pos.avg_price * pos.quantity| + f.quantity * f.price
      let newq := pos.quantity - f.quantity
      ({ pos with quantity := newq,
                  avg_price := if newq < 0 then |total_proceeds / newq| else 0 },
       f.quantity * f.price - f.commission, none)

/-- Portfolio.apply_fill (src/portfolio.py lines 65-167): get-or-create the
position for the fill's symbol, apply the per-position update, adjust cash,
append the recorded trade if one was produced.  The EquityUpdateEvent
published at the end goes to the portfolio's own subscriber-less bus. -/
def Portfolio.apply_fill (pf : Portfolio) (f : Fill) : Portfolio :=
  let pos := (lookupPos pf.positions f.symbol).getD (Position.init f.symbol)
  let res := applyFillPos pos f
  { pf with
    positions := setPos pf.positions f.symbol res.1,
    cash := pf.cash + res.2.1,
    trades := pf.trades ++ res.2.2.toList }

/-- Cost-basis-plus-unrealized value of one position, the summand of
Portfolio.get_total_equity. -/
def posValue (p : Position) : ℚ := p.quantity * p.avg_price + p.unrealized_pnl

/-- Portfolio.get_total_equity (src/portfolio.py lines 187-197). -/
def Portfolio.get_total_equity (pf : Portfolio) : ℚ :=
  pf.cash + (pf.positions.map (fun sp => posValue sp.2)).sum

/-- Portfolio.record_equity (src/portfolio.py lines 199-201). -/
def Portfolio.record_equity (pf : Portfolio) (ts : ℕ) : Portfolio :=
  { pf with equity_curve := pf.equity_curve ++ [(ts, pf.get_total_equity)] }

/-- Portfolio.update_unrealized_pnl (src/portfolio.py lines 169-185),
specialised to the single-entry price dictionary built by on_price_update. -/
def updateUnrealized (ps : List (String × Position)) (sym : String) (price : ℚ) :
    List (String × Position) :=
  ps.map fun sp =>
    if sp.2.quantity ≠ 0 ∧ sp.1 = sym then
      (sp.1,
        { sp.2 with
          unrealized_pnl :=
            if 0 < sp.2.quantity then (price - sp.2.avg_price) * sp.2.quantity
            else (sp.2.avg_price - price) * |sp.2.quantity| })
    else sp

/-- Portfolio.on_price_update (src/portfolio.py lines 46-63): refresh
unrealized PnL for the event's symbol and record one equity sample.  The
EquityUpdateEvent published afterwards goes to the subscriber-less bus. -/
def Portfolio.on_price_update (pf : Portfolio) (sym : String) (price : ℚ) (ts : ℕ) :
    Portfolio :=
  let pf' := { pf with positions := updateUnrealized pf.positions sym price }
  pf'.record_equity ts

/-- applyFills folds Portfolio.apply_fill over a list of fills. -/
def applyFills (pf : Portfolio) : List Fill → Portfolio
  | [] => pf
  | f :: fs => applyFills (pf.apply_fill f) fs

/-- Portfolio.get_position without the lazy insertion: the returned value is
the one Portfolio.get_position (src/portfolio.py lines 203-212) returns; the
side effect of storing a fresh zero position does not change any numeric
observable (the zero position contributes nothing to equity or exposure). -/
def Portfolio.get_position (pf : Portfolio) (sym : String) : Position :=
  (lookupPos pf.positions sym).getD (Position.init sym)

/-- Modelled from the spec: the PriceObservation / Bar record ("symbol,
timestamp, open/high/low/close, volume (all optional except symbol and
timestamp)").  The class itself (MultiBar/Bar imported by src/broker.py from
src.types) is not present under src/; the fields are the ones
BacktestSimulationBroker.process_orders reads.  The field named `open` in
the source is called `bopen` here because `open` is a Lean keyword. -/
structure Bar where
  timestamp : ℕ
  bopen : Option ℚ := none
  high : Option ℚ := none
  low : Option ℚ := none
  close : Option ℚ := none
deriving DecidableEq, Repr

/-- The fill-price determination step of
BacktestSimulationBroker.process_orders (src/broker.py lines 97-121) for one
open order against the bar of its symbol: open falls back to close (skip if
both absent), high/low fall back to the open price, then the order type and
side decide whether and at what price the order fills.  `none` means the
order is skipped / remains open; slippage and bookkeeping happen after this
step in the source. -/
def processOrderBar (o : Order) (b : Bar) : Option ℚ :=
  match b.bopen.or b.close with
  | none => none
  | some op =>
    let hi := b.high.getD op
    let lo := b.low.getD op
    match o.order_type with
    | OrderType.MARKET => some op
    | OrderType.LIMIT =>
      match o.limit_price with
      | none => none
      | some l =>
        match o.side with
        | OrderSide.BUY => if lo ≤ l then some (min op l) else none
        | OrderSide.SELL => if l ≤ hi then some (max op l) else none
    | OrderType.STOP =>
      match o.stop_price with
      | none => none
      | some s =>
        match o.side with
        | OrderSide.BUY => if s ≤ hi then some (max op s) else none
        | OrderSide.SELL => if lo ≤ s then some (min op s) else none

/-- BacktestSimulationBroker.new_order (src/broker.py lines 53-83), acting on
the broker's open-order list.  The Python assert on a zero quantity (which
raises) is modelled by returning none; otherwise the created order is
returned together with the updated open-order list. -/
def new_order (orders : List Order) (symbol : String) (quantity : ℚ)
    (limit : Option ℚ) (stop : Option ℚ) : Option (Order × List Order) :=
  if quantity = 0 then none
  else
    let side := if 0 < quantity then OrderSide.BUY else OrderSide.SELL
    let ot :=
      if limit.isSome then OrderType.LIMIT
      else if stop.isSome then OrderType.STOP
      else OrderType.MARKET
    let o : Order := ⟨symbol, side, quantity, ot, limit, stop⟩
    some (o, orders ++ [o])

/-- RiskManager state (src/risk_manager.py, __init__). -/
structure RiskManager where
  max_position_size : Option ℚ := none
  max_portfolio_exposure : Option ℚ := none
  max_drawdown : Option ℚ := none
  peak_equity : Option ℚ := none
deriving DecidableEq, Repr

/-- RiskManager.validate_order (src/risk_manager.py lines 39-87).  Returns
the boolean verdict and the risk manager state after the call (the only
mutation is the peak-equity update inside the drawdown check).  Early
returns of the source are mirrored: a rejection by the position-size or
exposure check returns before the drawdown block, leaving peak_equity
untouched.  Reading the current position uses the value
Portfolio.get_position returns (its lazy insertion of a zero position does
not change any quantity read here). -/
def RiskManager.validate_order (rm : RiskManager) (o : Order) (pf : Portfolio) :
    Bool × RiskManager :=
  let sizeReject : Bool :=
    match rm.max_position_size with
    | none => false
    | some m =>
      let cur := (pf.get_position o.symbol).quantity
      let newq := if o.side = OrderSide.BUY then cur + o.quantity else cur - o.quantity
      decide (m < |newq|)
  if sizeReject then (false, rm)
  else
    let expReject : Bool :=
      match rm.max_portfolio_exposure with
      | none => false
      | some m =>
        let cur :=
          (pf.positions.map fun sp =>
            if sp.2.quantity ≠ 0 then |sp.2.quantity| * sp.2.avg_price else 0).sum
        decide (m < cur + o.quantity * (o.limit_price.getD 0))
    if expReject then (false, rm)
    else
      match rm.max_drawdown with
      | none => (true, rm)
      | some md =>
        let ce := pf.get_total_equity
        let peak :=
          match rm.peak_equity with
          | none => ce
          | some p => if p < ce then ce else p
        let rm' := { rm with peak_equity := some peak }
        if md < (peak - ce) / peak then (false, rm') else (true, rm')

/-- Event dataclass for market data (src/types.py, class Event); only the
payload shape matters for the event-bus embedding. -/
structure MarketEvent where
  timestamp : ℕ
  symbol : String
  trade_price : Option ℚ := none
deriving DecidableEq, Repr

/-- Modelled from the spec: the three recognized domain-event variants
("PriceUpdate(symbol, price, timestamp), Fill(fill, timestamp),
EquityUpdate(equity, timestamp) — these are the only messages the EventBus
transports").  The DomainEvent class imported by src/event_bus.py from
src.types is not present under src/. -/
inductive DomainEvent where
  | priceUpdate (symbol : String) (price : ℚ) (timestamp : ℕ)
  | fillEvent (fill : Fill) (timestamp : ℕ)
  | equityUpdate (equity : ℚ) (timestamp : ℕ)
deriving DecidableEq, Repr

/-- The exact runtime type of a domain event, the key Python uses for
type-based routing (type(event)). -/
inductive DomainEventType where
  | priceUpdateT
  | fillEventT
  | equityUpdateT
deriving DecidableEq, Repr

/-- type(event) for domain events. -/
def DomainEvent.typeOf : DomainEvent → DomainEventType
  | DomainEvent.priceUpdate _ _ _ => DomainEventType.priceUpdateT
  | DomainEvent.fillEvent _ _ => DomainEventType.fillEventT
  | DomainEvent.equityUpdate _ _ => DomainEventType.equityUpdateT

/-- A dynamically-typed argument handed to EventBus.publish: a domain event,
a market-data Event, or any other Python value (neither of the two), here
carried as an opaque tag. -/
inductive PubValue where
  | domain (e : DomainEvent)
  | market (e : MarketEvent)
  | nonEvent (tag : ℕ)
deriving DecidableEq, Repr

/-- Append a handler id under a key in an insertion-ordered association list
of handler lists (models dict-of-lists setdefault-and-append). -/
def addHandler {α : Type} [DecidableEq α] :
    List (α × List ℕ) → α → ℕ → List (α × List ℕ)
  | [], k, h => [(k, [h])]
  | (k', hs) :: rest, k, h =>
      if k' = k then (k', hs ++ [h]) :: rest else (k', hs) :: addHandler rest k h

/-- First-match lookup for handler lists. -/
def lookupHandlers {α : Type} [DecidableEq α] :
    List (α × List ℕ) → α → Option (List ℕ)
  | [], _ => none
  | (k', hs) :: rest, k => if k' = k then some hs else lookupHandlers rest k

/-- EventBus state (src/event_bus.py, __init__): string-keyed legacy
subscribers (key None or a string), type-keyed domain subscribers, and the
market-data event queue.  Callbacks are modelled by opaque handler ids. -/
structure EventBus where
  subscribers : List (Option String × List ℕ) := []
  domain_subscribers : List (DomainEventType × List ℕ) := []
  event_queue : List PubValue := []
deriving DecidableEq, Repr

/-- EventBus.__init__(). -/
def EventBus.init : EventBus := ⟨[], [], []⟩

/-- A subscription key: a DomainEvent subclass, or a string/None (legacy). -/
inductive SubKey where
  | domainKey (t : DomainEventType)
  | strKey (s : Option String)
deriving DecidableEq, Repr

/-- EventBus.subscribe (src/event_bus.py lines 19-40): domain-event
subclass keys go to the type-keyed table, everything else to the
string-keyed table; the handler is appended to the key's list. -/
def EventBus.subscribe (bus : EventBus) (k : SubKey) (h : ℕ) : EventBus :=
  match k with
  | SubKey.domainKey t =>
      { bus with domain_subscribers := addHandler bus.domain_subscribers t h }
  | SubKey.strKey s =>
      { bus with subscribers := addHandler bus.subscribers s h }

/-- EventBus.publish (src/event_bus.py lines 42-62): a DomainEvent instance
is routed by exact type to the handlers registered for it, in registration
order; anything else takes the legacy path: it is appended to the event
queue and every string-keyed subscriber is invoked.  The result carries the
new bus state and the ids of the invoked handlers in invocation order; the
Except layer records that the source can only fail by raising, which this
body never does. -/
def EventBus.publish (bus : EventBus) (v : PubValue) :
    Except String (EventBus × List ℕ) :=
  match v with
  | PubValue.domain e =>
      Except.ok (bus, (lookupHandlers bus.domain_subscribers e.typeOf).getD [])
  | _ =>
      Except.ok
        ({ bus with event_queue := bus.event_queue ++ [v] },
         (bus.subscribers.map Prod.snd).flatten)

/-- Price lookup in the BrokerSim last-price cache. -/
def lookupPrice : List (String × ℚ) → String → Option ℚ
  | [], _ => none
  | (s, p) :: rest, sym => if s = sym then some p else lookupPrice rest sym

/-- Overwrite-or-append in the BrokerSim last-price cache. -/
def setPrice : List (String × ℚ) → String → ℚ → List (String × ℚ)
  | [], sym, p => [(sym, p)]
  | (s, q) :: rest, sym, p =>
      if s = sym then (s, p) :: rest else (s, q) :: setPrice rest sym p

/-- BrokerSim state (src/execution/execution_client.py, __init__).  The
optional slippage model is a function of the order, as in the source. -/
structure BrokerSim where
  slippage_model : Option (Order → ℚ) := none
  order_id_counter : ℕ := 0
  last_prices : List (String × ℚ) := []

/-- The slippage BrokerSim.send_order applies to a fill: 0 without a
slippage model, otherwise the model applied to the order (the source line
"0.0 if not self.slippage_model else self.slippage_model(order)"). -/
def BrokerSim.slipOf (b : BrokerSim) (o : Order) : ℚ :=
  match b.slippage_model with
  | none => 0
  | some f => f o

/-- BrokerSim.send_order (src/execution/execution_client.py lines 51-87).
The wall-clock datetime.now() fill timestamp is passed in as `now`.  The
state is returned alongside the outcome because the counter increment
happens before the price check in the source (so it persists even when the
call raises).  The order is never inspected beyond symbol, side and
quantity: no limit/stop condition is evaluated and every order with an
available reference price fills immediately with commission 0. -/
def BrokerSim.send_order (b : BrokerSim) (o : Order) (current_price : Option ℚ)
    (now : ℕ) : BrokerSim × Except String Fill :=
  let counter := b.order_id_counter + 1
  let slip : ℚ := b.slipOf o
  match current_price with
  | some p =>
      ({ b with order_id_counter := counter,
                last_prices := setPrice b.last_prices o.symbol p },
       Except.ok ⟨counter, now, o.symbol, o.side, o.quantity, p + slip, slip, 0⟩)
  | none =>
      match lookupPrice b.last_prices o.symbol with
      | some p =>
          ({ b with order_id_counter := counter },
           Except.ok ⟨counter, now, o.symbol, o.side, o.quantity, p + slip, slip, 0⟩)
      | none =>
          ({ b with order_id_counter := counter },
           Except.error "No price available")

/-- Decidable per-step admissibility of a fill sequence: every fill has a
positive quantity and every SELL closes no more than the current position
(so no short position is ever opened). -/
def fillsOk (pf : Portfolio) : List Fill → Bool
  | [] => true
  | f :: fs =>
    (decide (0 < f.quantity) &&
      (if f.side = OrderSide.SELL then
        decide (f.quantity ≤ (pf.get_position f.symbol).quantity)
      else true)) &&
    fillsOk (pf.apply_fill f) fs

/-- Every position of the portfolio has quantity zero (no net open position). -/
def allFlat (pf : Portfolio) : Bool :=
  pf.positions.all fun sp => decide (sp.2.quantity = 0)

/-- Every position is long-or-flat with no unrealized PnL recorded. -/
def LongFlat (pf : Portfolio) : Prop :=
  ∀ sp ∈ pf.positions, 0 ≤ sp.2.quantity ∧ sp.2.unrealized_pnl = 0

/-- The ledger identity: cash plus cost-basis value of all positions equals
initial cash plus the realized pnl of all recorded trades. -/
def LedgerBalanced (pf : Portfolio) : Prop :=
  pf.cash + (pf.positions.map (fun sp => posValue sp.2)).sum
    = pf.initial_cash + (pf.trades.map Trade.pnl).sum

theorem posValue_init (s : String) : posValue (Position.init s) = 0 := by
  simp [posValue, Position.init]

theorem lookupPos_setPos_self (l : List (String × Position)) (s : String)
    (p : Position) : lookupPos (setPos l s p) s = some p := by
  induction l with
  | nil => simp [setPos, lookupPos]
  | cons a rest ih =>
    cases a with
    | mk s' q =>
      by_cases h : s' = s
      · simp [setPos, lookupPos, h]
      · simp [setPos, lookupPos, h, ih]

theorem lookupPos_mem (l : List (String × Position)) (s : String) (p : Position)
    (h : lookupPos l s = some p) : (s, p) ∈ l := by
  induction l with
  | nil => simp [lookupPos] at h
  | cons a rest ih =>
    cases a with
    | mk s' q =>
      by_cases hs : s' = s
      · subst hs
        simp [lookupPos] at h
        subst h
        exact List.mem_cons_self _ _
      · simp [lookupPos, hs] at h
        exact List.mem_cons_of_mem _ (ih h)

theorem mem_setPos (l : List (String × Position)) (s : String) (p : Position)
    (x : String × Position) (hx : x ∈ setPos l s p) : x.2 = p ∨ x ∈ l := by
  induction l with
  | nil =>
    simp [setPos] at hx
    subst hx
    exact Or.inl rfl
  | cons a rest ih =>
    cases a with
    | mk s' q =>
      by_cases h : s' = s
      · simp [setPos, h] at hx
        rcases hx with hx | hx
        · subst hx
          exact Or.inl rfl
        · exact Or.inr (List.mem_cons_of_mem _ hx)
      · simp [setPos, h] at hx
        rcases hx with hx | hx
        · subst hx
          exact Or.inr (List.mem_cons_self _ _)
        · rcases ih hx with h' | h'
          · exact Or.inl h'
          · exact Or.inr (List.mem_cons_of_mem _ h')

theorem sum_setPos (l : List (String × Position)) (s : String) (p : Position) :
    ((setPos l s p).map (fun sp => posValue sp.2)).sum =
      (l.map (fun sp => posValue sp.2)).sum + posValue p
        - posValue ((lookupPos l s).getD (Position.init s)) := by
  induction l with
  | nil => simp [setPos, lookupPos, posValue_init]
  | cons a rest ih =>
    cases a with
    | mk s' q =>
      by_cases h : s' = s
      · simp [setPos, lookupPos, h]
        ring
      · simp [setPos, lookupPos, h, ih]
        ring

/-- Unfolding of Portfolio.apply_fill through the position accessor. -/
theorem apply_fill_eq (pf : Portfolio) (f : Fill) :
    pf.apply_fill f =
      { pf with
        positions := setPos pf.positions f.symbol
          (applyFillPos (pf.get_position f.symbol) f).1,
        cash := pf.cash + (applyFillPos (pf.get_position f.symbol) f).2.1,
        trades := pf.trades ++ (applyFillPos (pf.get_position f.symbol) f).2.2.toList } :=
  rfl

/-- applyFillPos on a BUY against a long-or-flat position: the
adding-to-long branch of the source. -/
theorem applyFillPos_buy_long (pos : Position) (f : Fill)
    (hside : f.side = OrderSide.BUY) (hpos : 0 ≤ pos.quantity)
    (hq : 0 < f.quantity) :
    applyFillPos pos f =
      ({ pos with
          quantity := pos.quantity + f.quantity,
          avg_price := (pos.avg_price * pos.quantity
            + (f.quantity * f.price + f.commission))
            / (pos.quantity + f.quantity) },
       -(f.quantity * f.price + f.commission), none) := by
  have h1 : ¬ pos.quantity < 0 := not_lt.mpr hpos
  have h2 : 0 < pos.quantity + f.quantity := by linarith
  simp [applyFillPos, hside, h1, h2]

/-- applyFillPos on a SELL that closes part of a long position without
opening a short: the closing-long branch of the source with no remainder. -/
theorem applyFillPos_sell_close (pos : Position) (f : Fill)
    (hside : f.side = OrderSide.SELL) (hq : 0 < f.quantity)
    (hle : f.quantity ≤ pos.quantity) :
    applyFillPos pos f =
      ({ pos with quantity := pos.quantity - f.quantity },
       f.quantity * f.price - f.commission,
       some ⟨f.timestamp, f.symbol, "SELL", f.quantity, f.price, f.slippage,
             f.commission, (f.price - pos.avg_price) * f.quantity - f.commission⟩) := by
  have h1 : 0 < pos.quantity := lt_of_lt_of_le hq hle
  have h2 : min pos.quantity f.quantity = f.quantity := min_eq_right hle
  have h3 : ¬ min pos.quantity f.quantity < f.quantity := by
    rw [h2]
    exact lt_irrefl _
  simp [applyFillPos, hside, h1, h2, h3, OrderSide.value]

theorem lookupHandlers_addHandler {α : Type} [DecidableEq α]
    (l : List (α × List ℕ)) (k : α) (h : ℕ) :
    lookupHandlers (addHandler l k h) k =
      some ((lookupHandlers l k).getD [] ++ [h]) := by
  induction l with
  | nil => simp [addHandler, lookupHandlers]
  | cons a rest ih =>
    cases a with
    | mk k' hs =>
      by_cases hk : k' = k
      · simp [addHandler, lookupHandlers, hk]
      · simp [addHandler, lookupHandlers, hk, ih]

/-- Generic preservation step: if the per-position update sends the current
position to a long-or-flat position with no unrealized PnL, and the cash
delta plus the position-value delta equals the pnl of the appended trades,
the long-only ledger invariant survives the fill. -/
theorem apply_fill_invariant_aux (pf : Portfolio) (f : Fill) (P : Position)
    (C : ℚ) (T : Option Trade)
    (hPC : applyFillPos (pf.get_position f.symbol) f = (P, C, T))
    (hL : LongFlat pf) (hE : LedgerBalanced pf)
    (hq0 : 0 ≤ P.quantity) (hu0 : P.unrealized_pnl = 0)
    (hbal : C + posValue P - posValue (pf.get_position f.symbol)
      = (T.toList.map Trade.pnl).sum) :
    LongFlat (pf.apply_fill f) ∧ LedgerBalanced (pf.apply_fill f) ∧
      (pf.apply_fill f).initial_cash = pf.initial_cash := by
  refine ⟨?_, ?_, rfl⟩
  · intro sp hsp
    have hmem : sp ∈ setPos pf.positions f.symbol P := by
      rw [apply_fill_eq, hPC] at hsp
      exact hsp
    rcases mem_setPos _ _ _ _ hmem with h | h
    · rw [h]
      exact ⟨hq0, hu0⟩
    · exact hL sp h
  · unfold LedgerBalanced at hE ⊢
    rw [apply_fill_eq, hPC]
    simp only
    rw [sum_setPos, List.map_append, List.sum_append]
    have hgd : (lookupPos pf.positions f.symbol).getD (Position.init f.symbol)
        = pf.get_position f.symbol := rfl
    rw [hgd]
    linarith [hE, hbal]

/-- One apply_fill step preserves the long-only ledger invariant, provided
the fill has positive quantity and a SELL never exceeds the current
position. -/
theorem apply_fill_invariant (pf : Portfolio) (f : Fill)
    (hL : LongFlat pf) (hE : LedgerBalanced pf)
    (hq : 0 < f.quantity)
    (hsell : f.side = OrderSide.SELL →
      f.quantity ≤ (pf.get_position f.symbol).quantity) :
    LongFlat (pf.apply_fill f) ∧ LedgerBalanced (pf.apply_fill f) ∧
      (pf.apply_fill f).initial_cash = pf.initial_cash := by
  have hpos : 0 ≤ (pf.get_position f.symbol).quantity ∧
      (pf.get_position f.symbol).unrealized_pnl = 0 := by
    unfold Portfolio.get_position
    cases hl : lookupPos pf.positions f.symbol with
    | none => simp [Position.init]
    | some q =>
      simpa using hL (f.symbol, q) (lookupPos_mem _ _ _ hl)
  cases hside : f.side with
  | BUY =>
    have hstep := applyFillPos_buy_long (pf.get_position f.symbol) f hside hpos.1 hq
    refine apply_fill_invariant_aux pf f _ _ _ hstep hL hE ?_ ?_ ?_
    · simp only
      linarith [hpos.1, hq.le]
    · simpa using hpos.2
    · have hne : (pf.get_position f.symbol).quantity + f.quantity ≠ 0 :=
        ne_of_gt (by linarith [hpos.1])
      simp only [posValue, Option.toList_none, List.map_nil, List.sum_nil]
      rw [hpos.2]
      field_simp
      ring
  | SELL =>
    have hle := hsell hside
    have hstep := applyFillPos_sell_close (pf.get_position f.symbol) f hside hq hle
    refine apply_fill_invariant_aux pf f _ _ _ hstep hL hE ?_ ?_ ?_
    · simp only
      linarith [hle]
    · simpa using hpos.2
    · simp only [posValue, Option.toList_some, List.map_cons, List.map_nil,
        List.sum_cons, List.sum_nil]
      rw [hpos.2]
      ring

/-- fillsOk admissibility carried along a fold of apply_fill preserves the
long-only ledger invariant. -/
theorem applyFills_invariant (fs : List Fill) (pf : Portfolio)
    (hL : LongFlat pf) (hE : LedgerBalanced pf)
    (hok : fillsOk pf fs = true) :
    LongFlat (applyFills pf fs) ∧ LedgerBalanced (applyFills pf fs) ∧
      (applyFills pf fs).initial_cash = pf.initial_cash := by
  induction fs generalizing pf with
  | nil => exact ⟨hL, hE, rfl⟩
  | cons f fs ih =>
    unfold fillsOk at hok
    rw [Bool.and_eq_true, Bool.and_eq_true] at hok
    obtain ⟨⟨hq, hsellb⟩, hrest⟩ := hok
    have hq' : 0 < f.quantity := of_decide_eq_true hq
    have hsell : f.side = OrderSide.SELL →
        f.quantity ≤ (pf.get_position f.symbol).quantity := by
      intro h
      rw [if_pos h] at hsellb
      exact of_decide_eq_true hsellb
    obtain ⟨hL', hE', hinit⟩ := apply_fill_invariant pf f hL hE hq' hsell
    obtain ⟨hL'', hE'', hinit'⟩ := ih (pf.apply_fill f) hL' hE' hrest
    exact ⟨hL'', hE'', by rw [applyFills, hinit', hinit]⟩

/-- The fill pair of test_closing_long_position: BUY 10 @ 150 then
SELL 10 @ 155, each with commission 1, on a fresh portfolio. -/
def closePairPf : Portfolio :=
  applyFills (Portfolio.init 100000)
    [⟨1, 0, "AAPL", OrderSide.BUY, 10, 150, 0, 1⟩,
     ⟨2, 1, "AAPL", OrderSide.SELL, 10, 155, 0, 1⟩]

/-- C1: the invariant "quantity == 0 implies avg_price == 0" fails on
Portfolio.apply_fill.  After a fill that exactly closes a long position the
quantity is 0 but avg_price keeps its prior value 150.1 — the reset that
BacktestSimulationBroker.process_orders performs on an exact close is
missing from Portfolio.apply_fill. -/
theorem close_leaves_stale_avg_price :
    (closePairPf.get_position "AAPL").quantity = 0 ∧
      (closePairPf.get_position "AAPL").avg_price ≠ 0 := by
  norm_num [closePairPf, applyFills, Portfolio.apply_fill, applyFillPos,
    Portfolio.get_position, lookupPos, setPos, Position.init, Portfolio.init,
    OrderSide.value]

/-- The C2 counterexample fills: open a short of 1 @ 10 and cover it at 10,
with zero commission, leaving every position flat. -/
def shortTripFills : List Fill :=
  [⟨1, 0, "A", OrderSide.SELL, 1, 10, 0, 0⟩,
   ⟨2, 1, "A", OrderSide.BUY, 1, 10, 0, 0⟩]

/-- C2 counterexample: after a short round trip (SELL 1 @ 10 then BUY 1 @ 10,
no commission, initial cash 100) every position has quantity zero, yet total
equity is 110, not initialCash + Σ(trade.pnl) = 100 + 0: covering the short
changes cash by fill.quantity*fill.price − cost = −commission = 0, so the
buy-back is never paid for. -/
theorem short_round_trip_breaks_equity_identity :
    allFlat (applyFills (Portfolio.init 100) shortTripFills) = true ∧
    (applyFills (Portfolio.init 100) shortTripFills).get_total_equity ≠
      100 + ((applyFills (Portfolio.init 100) shortTripFills).trades.map
        Trade.pnl).sum := by
  norm_num [shortTripFills, allFlat, applyFills, Portfolio.apply_fill,
    applyFillPos, Portfolio.get_position, Portfolio.get_total_equity, posValue,
    lookupPos, setPos, Position.init, Portfolio.init, OrderSide.value]

/-- C2 (amended): for every initial cash value and every sequence of
positive-quantity fills in which no SELL ever exceeds the current position
(so no short position is ever opened), if afterwards every position has
quantity zero then getTotalEquity() equals initialCash plus the sum of pnl
over all recorded trades. -/
theorem flat_long_only_equity_identity (c : ℚ) (fs : List Fill)
    (hok : fillsOk (Portfolio.init c) fs = true)
    (hflat : allFlat (applyFills (Portfolio.init c) fs) = true) :
    (applyFills (Portfolio.init c) fs).get_total_equity
      = c + ((applyFills (Portfolio.init c) fs).trades.map Trade.pnl).sum := by
  have h0L : LongFlat (Portfolio.init c) := by
    intro sp h
    simp [Portfolio.init] at h
  have h0E : LedgerBalanced (Portfolio.init c) := by
    simp [LedgerBalanced, Portfolio.init]
  obtain ⟨hL, hE, hinit⟩ := applyFills_invariant fs _ h0L h0E hok
  have hsum : ((applyFills (Portfolio.init c) fs).positions.map
      (fun sp => posValue sp.2)).sum = 0 := by
    apply List.sum_eq_zero
    intro x hx
    rw [List.mem_map] at hx
    obtain ⟨sp, hsp, rfl⟩ := hx
    have hq0 : sp.2.quantity = 0 := by
      have hall := List.all_eq_true.mp hflat sp hsp
      exact of_decide_eq_true hall
    have hu0 := (hL sp hsp).2
    simp [posValue, hq0, hu0]
  unfold LedgerBalanced at hE
  unfold Portfolio.get_total_equity
  rw [hsum] at hE ⊢
  rw [hinit] at hE
  simpa [Portfolio.init] using hE

/-- The fills of the C2 witness: a long round trip BUY 1 @ 5, SELL 1 @ 6. -/
def longTripFills : List Fill :=
  [⟨1, 0, "A", OrderSide.BUY, 1, 5, 0, 0⟩,
   ⟨2, 1, "A", OrderSide.SELL, 1, 6, 0, 0⟩]

/-- Witness for the amended C2 at a concrete long round trip. -/
theorem flat_long_only_equity_identity_w :
    (fillsOk (Portfolio.init 100) longTripFills = true ∧
      allFlat (applyFills (Portfolio.init 100) longTripFills) = true) ∧
    (applyFills (Portfolio.init 100) longTripFills).get_total_equity
      = 100 + ((applyFills (Portfolio.init 100) longTripFills).trades.map
        Trade.pnl).sum :=
  ⟨⟨by (norm_num [longTripFills, fillsOk, applyFills, Portfolio.apply_fill,
      applyFillPos, Portfolio.get_position, lookupPos, setPos, Position.init,
      Portfolio.init]; decide),
    by norm_num [longTripFills, allFlat, applyFills, Portfolio.apply_fill,
      applyFillPos, Portfolio.get_position, lookupPos, setPos, Position.init,
      Portfolio.init]⟩,
   flat_long_only_equity_identity 100 longTripFills
     (by (norm_num [longTripFills, fillsOk, applyFills, Portfolio.apply_fill,
       applyFillPos, Portfolio.get_position, lookupPos, setPos, Position.init,
       Portfolio.init]; decide))
     (by norm_num [longTripFills, allFlat, applyFills, Portfolio.apply_fill,
       applyFillPos, Portfolio.get_position, lookupPos, setPos, Position.init,
       Portfolio.init])⟩

/-- C5 counterexample: applying a fill does not append a sample to the
equity curve (apply_fill publishes an equity-update event but only
on_price_update records to the curve). -/
theorem apply_fill_adds_no_curve_sample :
    ((Portfolio.init 100000).apply_fill
        ⟨1, 0, "AAPL", OrderSide.BUY, 10, 150, 0, 1⟩).equity_curve.length ≠
      (Portfolio.init 100000).equity_curve.length + 1 := by decide

/-- C5 (amended): the equity curve gains exactly one (timestamp, equity)
sample per processed price update, while apply_fill leaves the curve
unchanged; the curve therefore has one sample per processed price
observation, but fills contribute no samples. -/
theorem equity_curve_samples (pf : Portfolio) (sym : String) (price : ℚ)
    (ts : ℕ) (f : Fill) :
    (pf.on_price_update sym price ts).equity_curve.length
        = pf.equity_curve.length + 1 ∧
    (pf.apply_fill f).equity_curve.length = pf.equity_curve.length := by
  constructor
  · simp [Portfolio.on_price_update, Portfolio.record_equity]
  · rw [apply_fill_eq]

/-- C3: the matching rules of processOrders per order type and side, with
openPrice = open falling back to close and high/low falling back to
openPrice: MARKET fills at openPrice; LIMIT BUY fills iff low ≤ limit at
min(openPrice, limit); LIMIT SELL fills iff high ≥ limit at max(openPrice,
limit); STOP BUY fills iff high ≥ stop at max(openPrice, stop); STOP SELL
fills iff low ≤ stop at min(openPrice, stop); otherwise the order remains
open (the matcher returns none).  The last conjunct is Scenario D: STOP
SELL @ stop=98 against bar(open=100, high=101, low=95, close=97) fills
at 98. -/
theorem matching_rules (b : Bar) (op : ℚ) (o : Order)
    (hop : b.bopen.or b.close = some op) :
    (o.order_type = OrderType.MARKET → processOrderBar o b = some op) ∧
    (∀ l, o.order_type = OrderType.LIMIT → o.limit_price = some l →
      (o.side = OrderSide.BUY →
        processOrderBar o b =
          if b.low.getD op ≤ l then some (min op l) else none) ∧
      (o.side = OrderSide.SELL →
        processOrderBar o b =
          if l ≤ b.high.getD op then some (max op l) else none)) ∧
    (∀ s, o.order_type = OrderType.STOP → o.stop_price = some s →
      (o.side = OrderSide.BUY →
        processOrderBar o b =
          if s ≤ b.high.getD op then some (max op s) else none) ∧
      (o.side = OrderSide.SELL →
        processOrderBar o b =
          if b.low.getD op ≤ s then some (min op s) else none)) ∧
    processOrderBar ⟨"X", OrderSide.SELL, -5, OrderType.STOP, none, some 98⟩
        ⟨0, some 100, some 101, some 95, some 97⟩ = some 98 := by
  refine ⟨?_, ?_, ?_, by decide⟩
  · intro ht
    simp [processOrderBar, hop, ht]
  · intro l ht hl
    constructor
    · intro hs
      simp [processOrderBar, hop, ht, hl, hs]
    · intro hs
      simp [processOrderBar, hop, ht, hl, hs]
  · intro s ht hst
    constructor
    · intro hs
      simp [processOrderBar, hop, ht, hst, hs]
    · intro hs
      simp [processOrderBar, hop, ht, hst, hs]

/-- The bar of Scenario C: open=105, high=106, low=99, close=104. -/
def scenCBar : Bar := ⟨0, some 105, some 106, some 99, some 104⟩

/-- The order of Scenario C: LIMIT BUY 10 @ limit=100. -/
def scenCOrder : Order := ⟨"X", OrderSide.BUY, 10, OrderType.LIMIT, some 100, none⟩

/-- Witness for C3: Scenario C derived from the matching rules at a
concrete bar, discharging the open-price hypothesis. -/
theorem matching_rules_w :
    scenCBar.bopen.or scenCBar.close = some 105 ∧
    processOrderBar scenCOrder scenCBar = some 100 :=
  ⟨rfl, by
    have h := (matching_rules scenCBar 105 scenCOrder rfl).2.1 100 rfl rfl
    rw [h.1 rfl]
    decide⟩

/-- applyFillPos on a BUY against a short position: the covering branch of
the source, with the remainder sub-branch opening a long lot. -/
theorem applyFillPos_buy_short (pos : Position) (f : Fill)
    (hside : f.side = OrderSide.BUY) (hshort : pos.quantity < 0) :
    applyFillPos pos f =
      (if min |pos.quantity| f.quantity < f.quantity
       then { pos with avg_price := f.price,
                       quantity := f.quantity - min |pos.quantity| f.quantity }
       else { pos with quantity := pos.quantity + min |pos.quantity| f.quantity },
       (f.quantity * f.price - (f.quantity * f.price + f.commission))
         - (if min |pos.quantity| f.quantity < f.quantity
            then (f.quantity - min |pos.quantity| f.quantity) * f.price else 0),
       some ⟨f.timestamp, f.symbol, "BUY", min |pos.quantity| f.quantity, f.price,
             f.slippage, f.commission,
             (pos.avg_price - f.price) * min |pos.quantity| f.quantity
               - f.commission⟩) := by
  by_cases h : min |pos.quantity| f.quantity < f.quantity
  · simp [applyFillPos, hside, hshort, h, OrderSide.value]
  · simp [applyFillPos, hside, hshort, h, OrderSide.value]

/-- C4: a BUY fill applied against a short position covers
closeQty = min(|position.quantity|, fill.quantity): it appends exactly one
Trade with quantity closeQty and pnl = (avgPrice − fillPrice)·closeQty −
commission; cash changes by fill.quantity·fill.price − cost (cost =
fill.quantity·fill.price + commission), further reduced by
remainder·fill.price when fill.quantity > closeQty; and the position ends
at quantity + closeQty, or — when a remainder is left — becomes a long lot
of the remainder at avgPrice = fill.price. -/
theorem buy_covers_short (pf : Portfolio) (f : Fill) (pos : Position)
    (hside : f.side = OrderSide.BUY)
    (hlook : lookupPos pf.positions f.symbol = some pos)
    (hshort : pos.quantity < 0) :
    (pf.apply_fill f).trades =
      pf.trades ++
        [⟨f.timestamp, f.symbol, "BUY", min |pos.quantity| f.quantity, f.price,
          f.slippage, f.commission,
          (pos.avg_price - f.price) * min |pos.quantity| f.quantity
            - f.commission⟩] ∧
    (pf.apply_fill f).cash =
      pf.cash + ((f.quantity * f.price - (f.quantity * f.price + f.commission))
        - (if min |pos.quantity| f.quantity < f.quantity
           then (f.quantity - min |pos.quantity| f.quantity) * f.price else 0)) ∧
    lookupPos (pf.apply_fill f).positions f.symbol =
      some (if min |pos.quantity| f.quantity < f.quantity
            then { pos with avg_price := f.price,
                            quantity := f.quantity - min |pos.quantity| f.quantity }
            else { pos with
                    quantity := pos.quantity + min |pos.quantity| f.quantity }) := by
  have hget : pf.get_position f.symbol = pos := by
    unfold Portfolio.get_position
    rw [hlook]
    rfl
  have hstep := applyFillPos_buy_short pos f hside hshort
  refine ⟨?_, ?_, ?_⟩
  · rw [apply_fill_eq, hget, hstep]
    simp
  · rw [apply_fill_eq, hget, hstep]
  · rw [apply_fill_eq, hget, hstep]
    exact lookupPos_setPos_self _ _ _

/-- The concrete short position and covering fill of the C4 witness. -/
def shortPos : Position := ⟨"A", -2, 10, 0⟩

/-- A portfolio holding the short position of the C4 witness. -/
def shortPf : Portfolio := ⟨1000, 1020, [("A", shortPos)], [], []⟩

/-- The covering BUY of the C4 witness: 5 @ 8 with commission 1, covering a
short of 2 and opening a long remainder of 3. -/
def coverFill : Fill := ⟨3, 5, "A", OrderSide.BUY, 5, 8, 0, 1⟩

/-- Witness for C4 at the concrete short position and covering fill. -/
theorem buy_covers_short_w :
    (coverFill.side = OrderSide.BUY ∧
      lookupPos shortPf.positions coverFill.symbol = some shortPos ∧
      shortPos.quantity < 0) ∧
    ((shortPf.apply_fill coverFill).trades =
      shortPf.trades ++
        [⟨coverFill.timestamp, coverFill.symbol, "BUY",
          min |shortPos.quantity| coverFill.quantity, coverFill.price,
          coverFill.slippage, coverFill.commission,
          (shortPos.avg_price - coverFill.price)
            * min |shortPos.quantity| coverFill.quantity
            - coverFill.commission⟩] ∧
    (shortPf.apply_fill coverFill).cash =
      shortPf.cash + ((coverFill.quantity * coverFill.price
          - (coverFill.quantity * coverFill.price + coverFill.commission))
        - (if min |shortPos.quantity| coverFill.quantity < coverFill.quantity
           then (coverFill.quantity - min |shortPos.quantity| coverFill.quantity)
             * coverFill.price
           else 0)) ∧
    lookupPos (shortPf.apply_fill coverFill).positions coverFill.symbol =
      some (if min |shortPos.quantity| coverFill.quantity < coverFill.quantity
            then { shortPos with
                    avg_price := coverFill.price,
                    quantity := coverFill.quantity
                      - min |shortPos.quantity| coverFill.quantity }
            else { shortPos with
                    quantity := shortPos.quantity
                      + min |shortPos.quantity| coverFill.quantity })) :=
  ⟨⟨rfl, by decide, by decide⟩,
   buy_covers_short shortPf coverFill shortPos rfl (by decide) (by decide)⟩

/-- The no-limits risk manager of the C6 counterexample. -/
def noLimitsRM : RiskManager := ⟨none, none, none, none⟩

/-- The market BUY order probed through the risk gate in C6. -/
def probeOrder : Order := ⟨"A", OrderSide.BUY, 1, OrderType.MARKET, none, none⟩

/-- C6 counterexample: with no limits configured, validate_order returns
with peak_equity still none even though the portfolio's equity is positive
— the peak-equity side effect only happens inside the drawdown check, so it
does not occur "regardless of which limits are configured". -/
theorem validate_order_skips_peak_update :
    ((noLimitsRM.validate_order probeOrder (Portfolio.init 100000)).2).peak_equity
        = none ∧
    0 < (Portfolio.init 100000).get_total_equity := by
  constructor
  · rfl
  · norm_num [Portfolio.get_total_equity, Portfolio.init]

/-- C6 (amended): when maxDrawdown is configured and the position-size and
exposure limits are not (so validation reaches the drawdown block),
validate_order updates peakEquity upward as a side effect: afterwards
peakEquity holds a value at least the portfolio's total equity at call
time, whether or not the order is accepted. -/
theorem validate_order_updates_peak (rm : RiskManager) (md : ℚ) (o : Order)
    (pf : Portfolio)
    (hsize : rm.max_position_size = none)
    (hexp : rm.max_portfolio_exposure = none)
    (hdd : rm.max_drawdown = some md) :
    ∃ p, ((rm.validate_order o pf).2).peak_equity = some p ∧
      pf.get_total_equity ≤ p := by
  unfold RiskManager.validate_order
  rw [hsize, hexp, hdd]
  cases hpe : rm.peak_equity with
  | none =>
    refine ⟨pf.get_total_equity, ?_, le_refl _⟩
    simp only [hpe]
    split
    · next h => simp at h
    · split <;> rfl
  | some p0 =>
    by_cases hlt : p0 < pf.get_total_equity
    · refine ⟨pf.get_total_equity, ?_, le_refl _⟩
      simp only [hpe, if_pos hlt]
      split
      · next h => simp at h
      · split <;> rfl
    · refine ⟨p0, ?_, not_lt.mp hlt⟩
      simp only [hpe, if_neg hlt]
      split
      · next h => simp at h
      · split <;> rfl

/-- The drawdown-only risk manager of the C6 witness. -/
def ddOnlyRM : RiskManager := ⟨none, none, some 1, none⟩

/-- Witness for the amended C6 at a drawdown-only risk manager. -/
theorem validate_order_updates_peak_w :
    (ddOnlyRM.max_position_size = none ∧
      ddOnlyRM.max_portfolio_exposure = none ∧
      ddOnlyRM.max_drawdown = some 1) ∧
    ∃ p, ((ddOnlyRM.validate_order probeOrder (Portfolio.init 50)).2).peak_equity
        = some p ∧ (Portfolio.init 50).get_total_equity ≤ p :=
  ⟨⟨rfl, rfl, rfl⟩,
   validate_order_updates_peak ddOnlyRM 1 probeOrder (Portfolio.init 50)
     rfl rfl rfl⟩

/-- The Scenario F portfolio: an existing AAPL position of 60. -/
def scenFPf : Portfolio := ⟨100000, 91000, [("AAPL", ⟨"AAPL", 60, 150, 0⟩)], [], []⟩

/-- The Scenario F risk manager: maxPositionSize = 100, nothing else. -/
def scenFRM : RiskManager := ⟨some 100, none, none, none⟩

/-- Scenario F order BUY 50. -/
def scenF50 : Order := ⟨"AAPL", OrderSide.BUY, 50, OrderType.MARKET, none, none⟩

/-- Scenario F order BUY 40. -/
def scenF40 : Order := ⟨"AAPL", OrderSide.BUY, 40, OrderType.MARKET, none, none⟩

/-- C7: with maxPositionSize configured (and no other limit), validateOrder
projects newQuantity = currentQty + orderQty for a BUY and
currentQty − orderQty for a SELL, and rejects exactly when
|newQuantity| > maxPositionSize (equality is accepted).  The last two
conjuncts are Scenario F: current position 60, cap 100 — BUY 50 is
rejected (110 > 100) and BUY 40 is accepted (100 ≤ 100). -/
theorem position_size_gate (m : ℚ) (rm : RiskManager) (o : Order)
    (pf : Portfolio)
    (hsize : rm.max_position_size = some m)
    (hexp : rm.max_portfolio_exposure = none)
    (hdd : rm.max_drawdown = none) :
    ((rm.validate_order o pf).1 = false ↔
      m < |if o.side = OrderSide.BUY
           then (pf.get_position o.symbol).quantity + o.quantity
           else (pf.get_position o.symbol).quantity - o.quantity|) ∧
    (scenFRM.validate_order scenF50 scenFPf).1 = false ∧
    (scenFRM.validate_order scenF40 scenFPf).1 = true := by
  refine ⟨?_,
    by norm_num [RiskManager.validate_order, scenFRM, scenF50, scenFPf,
      Portfolio.get_position, lookupPos, Position.init],
    by norm_num [RiskManager.validate_order, scenFRM, scenF40, scenFPf,
      Portfolio.get_position, lookupPos, Position.init]⟩
  unfold RiskManager.validate_order
  rw [hsize, hexp, hdd]
  by_cases h : m < |if o.side = OrderSide.BUY
      then (pf.get_position o.symbol).quantity + o.quantity
      else (pf.get_position o.symbol).quantity - o.quantity|
  · simp [h]
  · simp [h]

/-- Witness for C7: Scenario F's rejection derived through the theorem. -/
theorem position_size_gate_w :
    scenFRM.max_position_size = some 100 ∧
    (scenFRM.validate_order scenF50 scenFPf).1 = false :=
  ⟨rfl,
   ((position_size_gate 100 scenFRM scenF50 scenFPf rfl rfl rfl).1).mpr
     (by norm_num [scenFPf, scenF50, Portfolio.get_position, lookupPos,
       Position.init])⟩

/-- C8: newOrder fails on a zero-quantity order; for a nonzero quantity it
returns and appends to the open-order list an order whose side is BUY iff
the quantity is positive and whose type is LIMIT whenever a limit price is
supplied (limit wins over stop even when both are supplied), STOP when only
a stop price is supplied, and MARKET when neither is. -/
theorem new_order_gate (os : List Order) (s : String) (q : ℚ)
    (l st : Option ℚ) :
    new_order os s 0 l st = none ∧
    (q ≠ 0 → ∃ o : Order,
      new_order os s q l st = some (o, os ++ [o]) ∧
      o.side = (if 0 < q then OrderSide.BUY else OrderSide.SELL) ∧
      o.order_type =
        (if l.isSome then OrderType.LIMIT
         else if st.isSome then OrderType.STOP
         else OrderType.MARKET) ∧
      o.symbol = s ∧ o.quantity = q ∧ o.limit_price = l ∧
      o.stop_price = st) := by
  constructor
  · simp [new_order]
  · intro hq
    refine ⟨⟨s, if 0 < q then OrderSide.BUY else OrderSide.SELL, q,
      if l.isSome then OrderType.LIMIT
      else if st.isSome then OrderType.STOP else OrderType.MARKET, l, st⟩,
      ?_, rfl, rfl, rfl, rfl, rfl, rfl⟩
    simp [new_order, hq]

/-- Witness for C8: a SELL stop-and-limit order of quantity −5 gets side
SELL and type LIMIT (limit wins over stop). -/
theorem new_order_gate_w :
    ((-5 : ℚ) ≠ 0) ∧
    (∃ o : Order,
      new_order [] "A" (-5) (some 3) (some 4) = some (o, [] ++ [o]) ∧
      o.side = (if 0 < (-5 : ℚ) then OrderSide.BUY else OrderSide.SELL) ∧
      o.order_type =
        (if (some (3 : ℚ)).isSome then OrderType.LIMIT
         else if (some (4 : ℚ)).isSome then OrderType.STOP
         else OrderType.MARKET) ∧
      o.symbol = "A" ∧ o.quantity = -5 ∧ o.limit_price = some 3 ∧
      o.stop_price = some 4) :=
  ⟨by norm_num,
   (new_order_gate [] "A" (-5) (some 3) (some 4)).2 (by norm_num)⟩

/-- C9 counterexample: publishing a value that is not a recognized
domain-event variant does not fail with a type error; the bus returns
normally, enqueues the value on the legacy market-data queue, and invokes
no handler. -/
theorem publish_non_event_no_type_error :
    EventBus.init.publish (PubValue.nonEvent 0) =
      Except.ok (⟨[], [], [PubValue.nonEvent 0]⟩, []) := rfl

/-- C9 (amended): publish never fails; a domain event invokes, in
registration order, exactly the handlers registered for the event's exact
type (subscribe appends to that list); every argument that is not a domain
event — a market-data event as much as any other value — is routed through
the legacy path: appended to the event queue and delivered to every
string-keyed subscriber. -/
theorem publish_total_and_dispatch (bus : EventBus) (v : PubValue) :
    (∃ r, bus.publish v = Except.ok r) ∧
    (∀ e, v = PubValue.domain e →
      bus.publish v =
        Except.ok (bus,
          (lookupHandlers bus.domain_subscribers e.typeOf).getD [])) ∧
    (∀ t h, lookupHandlers
        ((bus.subscribe (SubKey.domainKey t) h).domain_subscribers) t =
      some ((lookupHandlers bus.domain_subscribers t).getD [] ++ [h])) ∧
    ((∀ e, v ≠ PubValue.domain e) →
      bus.publish v =
        Except.ok ({ bus with event_queue := bus.event_queue ++ [v] },
          (bus.subscribers.map Prod.snd).flatten)) := by
  refine ⟨?_, ?_, ?_, ?_⟩
  · cases v <;> exact ⟨_, rfl⟩
  · rintro e rfl
    rfl
  · intro t h
    exact lookupHandlers_addHandler _ _ _
  · intro hnd
    cases v with
    | domain e => exact absurd rfl (hnd e)
    | market e => rfl
    | nonEvent tag => rfl

/-- The C9 witness bus: two handlers subscribed for the fill-event type. -/
def fillSubBus : EventBus :=
  (EventBus.init.subscribe (SubKey.domainKey DomainEventType.fillEventT) 7).subscribe
    (SubKey.domainKey DomainEventType.fillEventT) 9

/-- The C9 witness domain event. -/
def fillDomEv : DomainEvent :=
  DomainEvent.fillEvent ⟨1, 0, "A", OrderSide.BUY, 1, 1, 0, 0⟩ 0

/-- The C9 witness market-data event, an argument that is not a domain
event. -/
def tickEv : MarketEvent := ⟨0, "A", some 5⟩

/-- Witness for the amended C9: the two registered fill handlers are
invoked in registration order, and a market-data event takes the legacy
path — enqueued, with no string-keyed subscriber registered to invoke. -/
theorem publish_total_and_dispatch_w :
    (fillSubBus.publish (PubValue.domain fillDomEv) =
      Except.ok (fillSubBus,
        (lookupHandlers fillSubBus.domain_subscribers fillDomEv.typeOf).getD [])) ∧
    (lookupHandlers fillSubBus.domain_subscribers fillDomEv.typeOf).getD []
      = [7, 9] ∧
    (∀ e, PubValue.market tickEv ≠ PubValue.domain e) ∧
    fillSubBus.publish (PubValue.market tickEv) =
      Except.ok ({ fillSubBus with
          event_queue := fillSubBus.event_queue ++ [PubValue.market tickEv] },
        (fillSubBus.subscribers.map Prod.snd).flatten) :=
  ⟨(publish_total_and_dispatch fillSubBus (PubValue.domain fillDomEv)).2.1
      fillDomEv rfl,
   by decide,
   fun e h => PubValue.noConfusion h,
   (publish_total_and_dispatch fillSubBus (PubValue.market tickEv)).2.2.2
     (fun e h => PubValue.noConfusion h)⟩

/-- Whether an Except result is a success. -/
def isOkE {α : Type} (e : Except String α) : Bool :=
  match e with
  | Except.ok _ => true
  | Except.error _ => false

/-- C10: BrokerSim.send_order fills every order immediately and
unconditionally: with a supplied current_price, or a cached last price for
the symbol, it returns a Fill at that reference price plus modeled slippage
with commission 0 — regardless of the order's type, limit_price or
stop_price (last conjunct: the success of the call is invariant under
changing those three fields) — and it errors exactly when current_price is
absent and no last price is cached. -/
theorem send_order_fills_unconditionally (b : BrokerSim) (o : Order)
    (cp : Option ℚ) (now : ℕ) :
    (cp = none → lookupPrice b.last_prices o.symbol = none →
      (b.send_order o cp now).2 = Except.error "No price available") ∧
    (∀ p, cp = some p →
      (b.send_order o cp now).2 =
        Except.ok ⟨b.order_id_counter + 1, now, o.symbol, o.side, o.quantity,
          p + b.slipOf o, b.slipOf o, 0⟩) ∧
    (∀ p, cp = none → lookupPrice b.last_prices o.symbol = some p →
      (b.send_order o cp now).2 =
        Except.ok ⟨b.order_id_counter + 1, now, o.symbol, o.side, o.quantity,
          p + b.slipOf o, b.slipOf o, 0⟩) ∧
    (∀ t lp sp, isOkE (b.send_order
        { o with order_type := t, limit_price := lp, stop_price := sp } cp now).2
      = isOkE (b.send_order o cp now).2) := by
  refine ⟨?_, ?_, ?_, ?_⟩
  · rintro rfl hl
    simp [BrokerSim.send_order, hl]
  · rintro p rfl
    rfl
  · rintro p rfl hl
    simp [BrokerSim.send_order, hl]
  · intro t lp sp
    cases cp with
    | some p => rfl
    | none =>
      cases hl : lookupPrice b.last_prices o.symbol with
      | some p => simp [BrokerSim.send_order, hl, isOkE]
      | none => simp [BrokerSim.send_order, hl, isOkE]

/-- The C10 witness broker: fresh BrokerSim, no slippage model, no cache. -/
def freshSim : BrokerSim := ⟨none, 0, []⟩

/-- The C10 witness order: a LIMIT order carrying both a limit and a stop
price, which send_order nevertheless fills at the reference price. -/
def limitStopOrder : Order := ⟨"A", OrderSide.BUY, 5, OrderType.LIMIT, some 1, some 2⟩

/-- Witness for C10: the limit order fills immediately at the supplied
current price. -/
theorem send_order_fills_unconditionally_w :
    (some (100 : ℚ) = some (100 : ℚ)) ∧
    (freshSim.send_order limitStopOrder (some 100) 7).2 =
      Except.ok ⟨freshSim.order_id_counter + 1, 7, limitStopOrder.symbol,
        limitStopOrder.side, limitStopOrder.quantity,
        100 + freshSim.slipOf limitStopOrder, freshSim.slipOf limitStopOrder, 0⟩ :=
  ⟨rfl,
   (send_order_fills_unconditionally freshSim limitStopOrder (some 100) 7).2.1
     100 rfl⟩

end Liveback
